import Mathlib

set_option maxRecDepth 100000

/-!
# Verification of `batch_push.py`

A shallow embedding of the Lyra repository's `src/batch_push.py`, a script
that enumerates pending git changes, partitions them into fixed-size
batches, and stages/commits/pushes each batch sequentially.

External commands are modelled by an environment `Env` recording, for each
git invocation, its outcome (stdout bytes or failure for the status query;
success/failure for add and commit; a return code for push).  The script's
`main` is embedded as a function from `Env` to a trace of the external
actions it performs, plus an exit status.  Bytes are modelled as `Nat`
values (< 256 in all intended inputs).
-/

namespace BatchPush

/-- Module constant `BATCH_SIZE = 500` (line 5 of the source). -/
def BATCH_SIZE : Nat := 500

/-- Module constant `COMMIT_MSG_PREFIX = "Auto-batch commit: Part"` (line 6 of
the source; renamed here). -/
def COMMIT_MSG_START : String := "Auto-batch commit: Part"

/-- Outcome of one external git command: captured stdout bytes on success, or
a `subprocess.CalledProcessError` carrying a return code and stderr bytes. -/
inductive CmdResult where
  | ok (stdout : List Nat)
  | err (returncode : Nat) (stderr : List Nat)
deriving DecidableEq

/-- Embedding of `run_git_command` (lines 8-17): runs the command with `check=True`,
returning the stdout bytes, and catches `CalledProcessError`, returning
`None` (here `none`) after printing the error. -/
def run_git_command (res : CmdResult) : Option (List Nat) :=
  match res with
  | .ok out => some out
  | .err _ _ => none

/-- Is `b` a UTF-8 continuation byte (`0x80..0xBF`)? -/
def isCont (b : Nat) : Bool := 0x80 ≤ b && b ≤ 0xBF

/-- Decoding of UTF-8 with `errors='ignore'` (as in `bytes.decode('utf-8',
errors='ignore')`, line 34): valid sequences decode to their scalar values,
bytes that do not start a valid sequence are dropped and decoding restarts at
the next byte.  Dropping one byte at a time coincides with CPython's
maximal-subpart skipping because a continuation byte never starts a valid
sequence. -/
def utf8DecodeIgnoreFuel : Nat → List Nat → List Char
  | 0, _ => []
  | _, [] => []
  | fuel + 1, b0 :: rest =>
    if b0 < 0x80 then
      Char.ofNat b0 :: utf8DecodeIgnoreFuel fuel rest
    else if 0xC2 ≤ b0 && b0 ≤ 0xDF then
      match rest with
      | b1 :: rest2 =>
        if isCont b1 then
          Char.ofNat ((b0 - 0xC0) * 0x40 + (b1 - 0x80))
            :: utf8DecodeIgnoreFuel fuel rest2
        else utf8DecodeIgnoreFuel fuel (b1 :: rest2)
      | [] => []
    else if 0xE0 ≤ b0 && b0 ≤ 0xEF then
      match rest with
      | b1 :: b2 :: rest3 =>
        if (if b0 = 0xE0 then 0xA0 ≤ b1 && b1 ≤ 0xBF
            else if b0 = 0xED then 0x80 ≤ b1 && b1 ≤ 0x9F
            else isCont b1) && isCont b2 then
          Char.ofNat ((b0 - 0xE0) * 0x1000 + (b1 - 0x80) * 0x40 + (b2 - 0x80))
            :: utf8DecodeIgnoreFuel fuel rest3
        else utf8DecodeIgnoreFuel fuel (b1 :: b2 :: rest3)
      | r => utf8DecodeIgnoreFuel fuel r
    else if 0xF0 ≤ b0 && b0 ≤ 0xF4 then
      match rest with
      | b1 :: b2 :: b3 :: rest4 =>
        if (if b0 = 0xF0 then 0x90 ≤ b1 && b1 ≤ 0xBF
            else if b0 = 0xF4 then 0x80 ≤ b1 && b1 ≤ 0x8F
            else isCont b1) && isCont b2 && isCont b3 then
          Char.ofNat ((b0 - 0xF0) * 0x40000 + (b1 - 0x80) * 0x1000
              + (b2 - 0x80) * 0x40 + (b3 - 0x80))
            :: utf8DecodeIgnoreFuel fuel rest4
        else utf8DecodeIgnoreFuel fuel (b1 :: b2 :: b3 :: rest4)
      | r => utf8DecodeIgnoreFuel fuel r
    else utf8DecodeIgnoreFuel fuel rest

/-- Decoding starting with fuel `bs.length`: every step consumes at least one
byte, so the fuel never runs out on the initial call. -/
def utf8DecodeIgnore (bs : List Nat) : List Char :=
  utf8DecodeIgnoreFuel bs.length bs

/-- Decoding `entry[3:]` with `decode('utf-8', errors='ignore')`, as a `String`. -/
def pyDecode (bs : List Nat) : String := ⟨utf8DecodeIgnore bs⟩

/-- Embedding of `stdout.split(b'\x00')` (line 28): Python `bytes.split` on a one-byte
separator, keeping empty parts. -/
def splitOnZero : List Nat → List (List Nat)
  | [] => [[]]
  | b :: rest =>
    let r := splitOnZero rest
    if b = 0 then [] :: r
    else
      match r with
      | [] => [[b]]
      | h :: t => (b :: h) :: t

/-- The entry loop of `get_changed_files` (lines 29-36): skip empty entries,
take `entry[3:]`, decode it, and keep the result when non-empty. -/
def parseEntries : List (List Nat) → List String
  | [] => []
  | e :: es =>
    if e.isEmpty then parseEntries es
    else
      let file_path := pyDecode (e.drop 3)
      if file_path = "" then parseEntries es
      else file_path :: parseEntries es

/-- Embedding of `get_changed_files` (lines 19-37), as a function of the status query's
stdout (`none` when the query failed): `if not stdout: return []`, then split
on NUL and parse each entry. -/
def get_changed_files (stdout : Option (List Nat)) : List String :=
  match stdout with
  | none => []
  | some bs => if bs.isEmpty then [] else parseEntries (splitOnZero bs)

/-- The number of batches, `(total_files + BATCH_SIZE - 1) // BATCH_SIZE`
(line 50), parameterized by the batch size. -/
def numBatches (total B : Nat) : Nat := (total + B - 1) / B

/-- The slice taken on iteration `i` (lines 53-55):
`all_files[i*B : min(i*B + B, total)]`. -/
def batchSlice (B : Nat) (files : List String) (i : Nat) : List String :=
  let start_index := i * B
  let end_index := min (start_index + B) files.length
  (files.drop start_index).take (end_index - start_index)

/-- The full partition of the file list produced by the loop over
`range(num_batches)` (lines 50-55). -/
def batches (B : Nat) (files : List String) : List (List String) :=
  (List.range (numBatches files.length B)).map (batchSlice B files)

/-- The content written to the temporary path-list file (lines 62-64):
each path followed by a newline, in order. -/
def tempFileContent (batch : List String) : String :=
  batch.foldl (fun acc path => acc ++ path ++ "\n") ""

/-- The commit message `f"{COMMIT_MSG_PREFIX} {i+1} of {num_batches}"`
(line 71). -/
def commitMsg (i nb : Nat) : String :=
  COMMIT_MSG_START ++ " " ++ Nat.repr (i + 1) ++ " of " ++ Nat.repr nb

/-- One observable external action of the loop body (lines 62-89). -/
inductive Action where
  | writeTemp (content : String)
  | add (ok : Bool)
  | commit (msg : String) (ok : Bool)
  | push (returncode : Int)
  | removeTemp
deriving DecidableEq

/-- How the `try` block of one iteration ended: all commands done and push
returned 0 (`ok`); push returned non-zero and the body hit `break`
(`pushFail`); or `git add`/`git commit` raised `CalledProcessError`, caught
by the `except Exception` clause which then hits `break` (`exn`). -/
inductive StepOutcome where
  | ok
  | pushFail
  | exn
deriving DecidableEq

/-- The environment: outcomes of every external command the script may
issue.  `statusRes` is the status query's result; `addOk`/`commitOk` give,
per batch index, whether `git add`/`git commit` exit zero (with `check=True`
a non-zero exit raises); `pushRet` gives `git push`'s return code. -/
structure Env where
  statusRes : CmdResult
  addOk : Nat → Bool
  commitOk : Nat → Bool
  pushRet : Nat → Int

/-- The `try` block of iteration `i` (lines 61-82): write the path list,
`git add` (raises on failure), `git commit` (raises on failure), `git push`
(return code inspected; non-zero prints and `break`s). -/
def tryBody (env : Env) (i nb : Nat) (batch : List String) :
    List Action × StepOutcome :=
  if env.addOk i then
    if env.commitOk i then
      let r := env.pushRet i
      ([.writeTemp (tempFileContent batch), .add true,
        .commit (commitMsg i nb) true, .push r],
       if r = 0 then .ok else .pushFail)
    else
      ([.writeTemp (tempFileContent batch), .add true,
        .commit (commitMsg i nb) false], .exn)
  else
    ([.writeTemp (tempFileContent batch), .add false], .exn)

/-- One full iteration: the `try` block, the `except` clause (which turns an
exception into a `break`), and the `finally` clause (lines 87-89), which
removes the temporary file unconditionally.  Returns the iteration's actions
and whether the loop continues to the next batch. -/
def iterActions (env : Env) (i nb : Nat) (batch : List String) :
    List Action × Bool :=
  let p := tryBody env i nb batch
  (p.1 ++ [.removeTemp], p.2 == .ok)

/-- The `for i in range(num_batches)` loop (lines 52-89), with the remaining
iteration count as fuel and `i` the current index. -/
def loopFrom (env : Env) (files : List String) (nb : Nat) :
    Nat → Nat → List (Nat × List Action)
  | 0, _ => []
  | n + 1, i =>
    if (iterActions env i nb (batchSlice BATCH_SIZE files i)).2 then
      (i, (iterActions env i nb (batchSlice BATCH_SIZE files i)).1)
        :: loopFrom env files nb n (i + 1)
    else [(i, (iterActions env i nb (batchSlice BATCH_SIZE files i)).1)]

/-- Exit status of the process.  `unhandledError` would be the status of a
run killed by an uncaught exception; the embedding of `main` shows it never
occurs, since the per-batch `except Exception` clause catches every error
raised in the `try` block and the remaining code raises nothing. -/
inductive ExitStatus where
  | success
  | unhandledError
deriving DecidableEq

/-- Result of a run: the trace of iterations (batch index with its action
list, in order) and the process exit status. -/
structure RunResult where
  trace : List (Nat × List Action)
  exit : ExitStatus
deriving DecidableEq

/-- Embedding of `main` (lines 39-91): enumerate changes; if none, report and return;
otherwise partition into batches and run the loop. -/
def main (env : Env) : RunResult :=
  let all_files := get_changed_files (run_git_command env.statusRes)
  let total_files := all_files.length
  if total_files = 0 then ⟨[], .success⟩
  else
    let nb := numBatches total_files BATCH_SIZE
    ⟨loopFrom env all_files nb nb 0, .success⟩

/-- The enumerate-changes parse written following the specification's
description (for comparison with `get_changed_files`, which is translated
from the source): split the bytes on null separators, skip empty records,
drop the first three bytes of each record (two-character status code plus
space), decode the remainder as the path, skip records whose path is empty,
and keep the remaining paths in order without deduplication. -/
def enumerateChangesSpec (bs : List Nat) : List String :=
  (((splitOnZero bs).filter (fun e => !e.isEmpty)).map
      (fun e => pyDecode (e.drop 3))).filter (fun p => !(p == ""))

/-- The actions of one iteration whose staging and commit both succeeded. -/
def okIterActs (env : Env) (files : List String) (nb j : Nat) : List Action :=
  [.writeTemp (tempFileContent (batchSlice BATCH_SIZE files j)), .add true,
   .commit (commitMsg j nb) true, .push (env.pushRet j), .removeTemp]

/-- Existence state of `temp_batch_list.txt` after running a list of actions
from state `b` (`true` = the file exists): writing creates it, the `finally`
clause's removal deletes it, other commands leave it unchanged. -/
def tempExistsAfter (b : Bool) (acts : List Action) : Bool :=
  acts.foldl (fun st a =>
    match a with
    | .writeTemp _ => true
    | .removeTemp => false
    | _ => st) b

/-- Environment for the staging-failure scenario: the status query reports
one changed file `"a"` (record `?? a` NUL-terminated), `git add` always
fails, `git commit` and `git push` would succeed. -/
def envAddFail : Env :=
  ⟨.ok [63, 63, 32, 97, 0], fun _ => false, fun _ => true, fun _ => 0⟩

/-- The 501 changed paths of the push-failure scenario, all `"a"`. -/
def files501 : List String := List.replicate 501 "a"

/-- Status-query output reporting 501 changed files `"a"`. -/
def statusBytes501 : List Nat := (List.replicate 501 [63, 63, 32, 97, 0]).flatten

/-- Environment for the push-failure scenario: 501 changed files (2 batches),
staging and commit succeed, push always returns 1. -/
def envPushFail : Env :=
  ⟨.ok statusBytes501, fun _ => true, fun _ => true, fun _ => 1⟩

/-- The 1200 changed paths of the three-batch scenario, all `"a"`. -/
def files1200 : List String := List.replicate 1200 "a"

/-- Status-query output reporting 1200 changed files `"a"`. -/
def statusBytes1200 : List Nat :=
  (List.replicate 1200 [63, 63, 32, 97, 0]).flatten

/-- Environment in which every external command succeeds and the status
query reports 1200 changed files. -/
def envAllOk1200 : Env :=
  ⟨.ok statusBytes1200, fun _ => true, fun _ => true, fun _ => 0⟩

/-! ## Lemmas about the partition (lines 50-55) -/

lemma numBatches_zero (B : Nat) (hB : 1 ≤ B) : numBatches 0 B = 0 := by
  unfold numBatches
  exact Nat.div_eq_of_lt (by omega)

lemma numBatches_step (B N : Nat) (hB : 1 ≤ B) (hN : 1 ≤ N) :
    numBatches N B = numBatches (N - B) B + 1 := by
  unfold numBatches
  rcases Nat.le_total N B with h | h
  · have h1 : N + B - 1 = (N - 1) + B := by omega
    have h2 : N - B = 0 := by omega
    rw [h1, h2, Nat.add_div_right _ (by omega : 0 < B)]
    have d1 : (N - 1) / B = 0 := Nat.div_eq_of_lt (by omega)
    have d2 : (0 + B - 1) / B = 0 := Nat.div_eq_of_lt (by omega)
    omega
  · have h1 : N + B - 1 = (N - 1) + B := by omega
    have h2 : N - B + B - 1 = N - 1 := by omega
    rw [h1, h2, Nat.add_div_right _ (by omega : 0 < B)]

lemma batches_nil (B : Nat) (hB : 1 ≤ B) : batches B [] = [] := by
  unfold batches
  simp [numBatches_zero B hB]

lemma batchSlice_zero (B : Nat) (files : List String) :
    batchSlice B files 0 = files.take B := by
  unfold batchSlice
  simp only [Nat.zero_mul, Nat.zero_add, List.drop_zero, Nat.sub_zero]
  rw [Nat.min_comm, ← List.take_take]
  exact List.take_of_length_le (by simp)

lemma batchSlice_succ (B : Nat) (files : List String) (j : Nat) :
    batchSlice B files (j + 1) = batchSlice B (files.drop B) j := by
  simp only [batchSlice, List.length_drop, List.drop_drop]
  have h1 : (j + 1) * B = j * B + B := by ring
  rw [h1, Nat.add_comm (j * B) B]
  congr 1
  generalize j * B = s
  generalize files.length = L
  omega

lemma batches_cons (B : Nat) (hB : 1 ≤ B) (files : List String)
    (h : files ≠ []) :
    batches B files = files.take B :: batches B (files.drop B) := by
  have hN : 1 ≤ files.length := by
    cases files with
    | nil => simp at h
    | cons a l => simp
  unfold batches
  rw [List.length_drop, numBatches_step B files.length hB hN,
    List.range_succ_eq_map, List.map_cons, batchSlice_zero, List.map_map]
  congr 1
  apply List.map_congr_left
  intro j _
  exact batchSlice_succ B files j

lemma join_batches_aux (B : Nat) (hB : 1 ≤ B) :
    ∀ n (files : List String), files.length ≤ n →
      (batches B files).flatten = files := by
  intro n
  induction n with
  | zero =>
    intro files hlen
    have : files = [] := List.eq_nil_of_length_eq_zero (by omega)
    subst this
    rw [batches_nil B hB]
    rfl
  | succ n ih =>
    intro files hlen
    by_cases h : files = []
    · subst h
      rw [batches_nil B hB]
      rfl
    · rw [batches_cons B hB files h, List.flatten_cons,
        ih (files.drop B) (by simp [List.length_drop]; omega),
        List.take_append_drop]

lemma numBatches_eq_ceil (B : Nat) (hB : 1 ≤ B) :
    ∀ n N, N ≤ n → numBatches N B = N / B + (if N % B = 0 then 0 else 1) := by
  intro n
  induction n with
  | zero =>
    intro N hN
    have : N = 0 := by omega
    subst this
    simp [numBatches_zero B hB, Nat.zero_div, Nat.zero_mod]
  | succ n ih =>
    intro N hN
    by_cases h0 : N = 0
    · subst h0
      simp [numBatches_zero B hB, Nat.zero_div, Nat.zero_mod]
    · rw [numBatches_step B N hB (by omega), ih (N - B) (by omega)]
      rcases Nat.lt_or_ge N B with h | h
      · have e1 : N - B = 0 := by omega
        have e2 : N / B = 0 := Nat.div_eq_of_lt h
        have e3 : N % B = N := Nat.mod_eq_of_lt h
        simp [e1, e2, e3, h0, Nat.zero_div, Nat.zero_mod]
      · have hM : N = (N - B) + B := by omega
        conv_rhs => rw [hM]
        rw [Nat.add_div_right _ (by omega : 0 < B), Nat.add_mod_right]
        omega

lemma batches_dropLast_length (B : Nat) (hB : 1 ≤ B) :
    ∀ n (files : List String), files.length ≤ n →
      ∀ l ∈ (batches B files).dropLast, l.length = B := by
  intro n
  induction n with
  | zero =>
    intro files hlen
    have : files = [] := List.eq_nil_of_length_eq_zero (by omega)
    subst this
    rw [batches_nil B hB]
    intro l hl
    simp at hl
  | succ n ih =>
    intro files hlen
    by_cases h : files = []
    · subst h
      rw [batches_nil B hB]
      intro l hl
      simp at hl
    · rw [batches_cons B hB files h]
      by_cases hrest : batches B (files.drop B) = []
      · rw [hrest]
        intro l hl
        simp at hl
      · rw [List.dropLast_cons_of_ne_nil hrest]
        intro l hl
        rcases List.mem_cons.mp hl with rfl | hl
        · have hdrop : files.drop B ≠ [] := by
            intro hd
            exact hrest (hd ▸ batches_nil B hB)
          have hBlt : B < files.length := by
            by_contra hc
            exact hdrop (List.drop_eq_nil_of_le (by omega))
          simp [List.length_take]
          omega
        · exact ih (files.drop B) (by simp [List.length_drop]; omega) l hl

lemma batches_getLast_length (B : Nat) (hB : 1 ≤ B) :
    ∀ n (files : List String), files.length ≤ n →
      ∀ l, (batches B files).getLast? = some l →
        l.length = if files.length % B = 0 then B else files.length % B := by
  intro n
  induction n with
  | zero =>
    intro files hlen l hl
    have : files = [] := List.eq_nil_of_length_eq_zero (by omega)
    subst this
    rw [batches_nil B hB] at hl
    simp at hl
  | succ n ih =>
    intro files hlen l hl
    by_cases h : files = []
    · subst h
      rw [batches_nil B hB] at hl
      simp at hl
    · have hN : 1 ≤ files.length := by
        cases files with
        | nil => simp at h
        | cons a t => simp
      rw [batches_cons B hB files h] at hl
      by_cases hrest : batches B (files.drop B) = []
      · rw [hrest] at hl
        simp at hl
        subst hl
        have hdropnil : files.drop B = [] := by
          by_contra hd
          have hc := batches_cons B hB (files.drop B) hd
          rw [hrest] at hc
          simp at hc
        have hle : files.length ≤ B := List.drop_eq_nil_iff.mp hdropnil
        rw [List.take_of_length_le hle]
        rcases Nat.lt_or_ge files.length B with hlt | hge
        · rw [Nat.mod_eq_of_lt hlt, if_neg (by omega)]
        · have hEq : files.length = B := by omega
          rw [hEq, Nat.mod_self, if_pos rfl]
      · obtain ⟨r, rs, hr⟩ := List.exists_cons_of_ne_nil hrest
        rw [hr, List.getLast?_cons_cons, ← hr] at hl
        have hdrop : files.drop B ≠ [] := by
          intro hd
          exact hrest (hd ▸ batches_nil B hB)
        have hBlt : B < files.length := by
          by_contra hc
          exact hdrop (List.drop_eq_nil_iff.mpr (by omega))
        have hmodEq : files.length % B = (files.length - B) % B := by
          conv_lhs => rw [show files.length = B + (files.length - B) by omega]
          rw [Nat.add_mod_left]
        rw [hmodEq]
        have hlen' : (files.drop B).length ≤ n := by
          simp [List.length_drop]
          omega
        have := ih (files.drop B) hlen' l hl
        rwa [List.length_drop] at this

/-! ## Lemmas about the batch loop (lines 52-89) -/

lemma iterActions_eq (env : Env) (files : List String) (nb i : Nat)
    (ha : env.addOk i = true) (hc : env.commitOk i = true) :
    iterActions env i nb (batchSlice BATCH_SIZE files i)
      = (okIterActs env files nb i, decide (env.pushRet i = 0)) := by
  unfold iterActions tryBody okIterActs
  by_cases hp : env.pushRet i = 0 <;> simp [ha, hc, hp]

lemma iterActions_continue (env : Env) (i nb : Nat) (batch : List String) :
    (iterActions env i nb batch).2 = true ↔
      (env.addOk i = true ∧ env.commitOk i = true ∧ env.pushRet i = 0) := by
  unfold iterActions tryBody
  by_cases ha : env.addOk i <;> by_cases hc : env.commitOk i <;>
    by_cases hp : env.pushRet i = 0 <;> simp [ha, hc, hp]

lemma iterActions_shape (env : Env) (i nb : Nat) (batch : List String) :
    (iterActions env i nb batch).1 ∈
      [[Action.writeTemp (tempFileContent batch), .add false, .removeTemp],
       [Action.writeTemp (tempFileContent batch), .add true,
        .commit (commitMsg i nb) false, .removeTemp],
       [Action.writeTemp (tempFileContent batch), .add true,
        .commit (commitMsg i nb) true, .push (env.pushRet i), .removeTemp]] := by
  unfold iterActions tryBody
  by_cases ha : env.addOk i <;> by_cases hc : env.commitOk i <;>
    simp [ha, hc]

lemma loopFrom_stop (env : Env) (files : List String) (nb n i : Nat)
    (h : ¬(env.addOk i = true ∧ env.commitOk i = true ∧ env.pushRet i = 0)) :
    loopFrom env files nb (n + 1) i
      = [(i, (iterActions env i nb (batchSlice BATCH_SIZE files i)).1)] := by
  have h2 : (iterActions env i nb (batchSlice BATCH_SIZE files i)).2 = false := by
    rcases Bool.eq_false_or_eq_true
        (iterActions env i nb (batchSlice BATCH_SIZE files i)).2 with ht | hf
    · exact absurd ((iterActions_continue env i nb _).mp ht) h
    · exact hf
  simp only [loopFrom, h2]
  simp

lemma loopFrom_ok_segment (env : Env) (files : List String) (nb : Nat) :
    ∀ m n i,
      (∀ j, i ≤ j → j < i + m →
        env.addOk j = true ∧ env.commitOk j = true ∧ env.pushRet j = 0) →
      loopFrom env files nb (m + n) i
        = (List.range' i m).map (fun j => (j, okIterActs env files nb j))
            ++ loopFrom env files nb n (i + m) := by
  intro m
  induction m with
  | zero =>
    intro n i _
    simp [List.range']
  | succ m ih =>
    intro n i hok
    have hi := hok i (Nat.le_refl i) (by omega)
    have hstep : m + 1 + n = (m + n) + 1 := by omega
    rw [hstep]
    have hunf : loopFrom env files nb ((m + n) + 1) i
        = (i, okIterActs env files nb i)
            :: loopFrom env files nb (m + n) (i + 1) := by
      simp only [loopFrom, iterActions_eq env files nb i hi.1 hi.2.1]
      simp [hi.2.2]
    rw [hunf, ih n (i + 1) (fun j h1 h2 => hok j (by omega) (by omega))]
    have hrange : List.range' i (m + 1) = i :: List.range' (i + 1) m := rfl
    rw [hrange]
    simp [Nat.add_comm, Nat.add_assoc, Nat.add_left_comm]

lemma loopFrom_indices (env : Env) (files : List String) (nb : Nat) :
    ∀ n i, ∃ l, l ≤ n ∧
      (loopFrom env files nb n i).map Prod.fst = List.range' i l := by
  intro n
  induction n with
  | zero =>
    intro i
    exact ⟨0, Nat.le_refl 0, by simp [loopFrom]⟩
  | succ n ih =>
    intro i
    by_cases h : (iterActions env i nb (batchSlice BATCH_SIZE files i)).2 = true
    · obtain ⟨l, hl, hmap⟩ := ih (i + 1)
      refine ⟨l + 1, by omega, ?_⟩
      simp only [loopFrom, h, if_true, List.map_cons, hmap]
      rfl
    · refine ⟨1, by omega, ?_⟩
      rw [Bool.not_eq_true] at h
      simp only [loopFrom, h]
      simp [List.range']

lemma main_exit_success (env : Env) : (main env).exit = .success := by
  unfold main
  by_cases h :
      (get_changed_files (run_git_command env.statusRes)).length = 0 <;>
    simp [h]

lemma loopFrom_mem (env : Env) (files : List String) (nb : Nat) :
    ∀ n i p, p ∈ loopFrom env files nb n i →
      p.2 = (iterActions env p.1 nb (batchSlice BATCH_SIZE files p.1)).1 := by
  intro n
  induction n with
  | zero =>
    intro i p hp
    simp [loopFrom] at hp
  | succ n ih =>
    intro i p hp
    by_cases h : (iterActions env i nb (batchSlice BATCH_SIZE files i)).2 = true
    · simp only [loopFrom, h, if_true] at hp
      rcases List.mem_cons.mp hp with rfl | hp
      · rfl
      · exact ih (i + 1) p hp
    · rw [Bool.not_eq_true] at h
      simp only [loopFrom, h] at hp
      simp at hp
      subst hp
      rfl

lemma parseEntries_eq (l : List (List Nat)) :
    parseEntries l
      = ((l.filter (fun e => !e.isEmpty)).map
          (fun e => pyDecode (e.drop 3))).filter (fun p => !(p == "")) := by
  induction l with
  | nil => rfl
  | cons e es ih =>
    by_cases he : e.isEmpty
    · simp [parseEntries, he, ih]
    · by_cases hp : pyDecode (e.drop 3) = ""
      · simp [parseEntries, he, hp, ih]
      · simp [parseEntries, he, hp, ih]

lemma splitOnZero_ne_nil : ∀ bs : List Nat, splitOnZero bs ≠ [] := by
  intro bs
  induction bs with
  | nil => simp [splitOnZero]
  | cons b t ih =>
    unfold splitOnZero
    by_cases hb : b = 0
    · simp [hb]
    · simp only [hb, if_false]
      cases hs : splitOnZero t with
      | nil => simp
      | cons h r => simp

lemma splitOnZero_entry (t : List Nat) :
    splitOnZero (63 :: 63 :: 32 :: 97 :: 0 :: t)
      = [63, 63, 32, 97] :: splitOnZero t := by
  obtain ⟨h, rest, hsplit⟩ : ∃ h rest, splitOnZero t = h :: rest := by
    cases hs : splitOnZero t with
    | nil => exact absurd hs (splitOnZero_ne_nil t)
    | cons h r => exact ⟨h, r, rfl⟩
  simp [splitOnZero, hsplit]

lemma parseEntries_cons_good (e : List Nat) (es : List (List Nat))
    (he : e.isEmpty = false) (hp : ¬pyDecode (e.drop 3) = "") :
    parseEntries (e :: es) = pyDecode (e.drop 3) :: parseEntries es := by
  simp [parseEntries, he, hp]

lemma status_parse_replicate (n : Nat) :
    parseEntries (splitOnZero ((List.replicate n [63, 63, 32, 97, 0]).flatten))
      = List.replicate n "a" := by
  induction n with
  | zero => rfl
  | succ n ih =>
    rw [List.replicate_succ, List.flatten_cons]
    have h1 : (([63, 63, 32, 97, 0] : List Nat)
        ++ (List.replicate n [63, 63, 32, 97, 0]).flatten)
        = 63 :: 63 :: 32 :: 97 :: 0
            :: (List.replicate n [63, 63, 32, 97, 0]).flatten := rfl
    rw [h1, splitOnZero_entry,
      parseEntries_cons_good [63, 63, 32, 97] _ (by decide) (by decide), ih]
    rfl

lemma get_changed_files_replicate (n : Nat) (hn : 1 ≤ n) :
    get_changed_files (some ((List.replicate n [63, 63, 32, 97, 0]).flatten))
      = List.replicate n "a" := by
  have hb : ((List.replicate n [63, 63, 32, 97, 0]).flatten).isEmpty
      = false := by
    cases n with
    | zero => omega
    | succ m => rfl
  show (if ((List.replicate n [63, 63, 32, 97, 0]).flatten).isEmpty = true
      then []
      else parseEntries
        (splitOnZero ((List.replicate n [63, 63, 32, 97, 0]).flatten)))
    = List.replicate n "a"
  rw [hb]
  simp only [Bool.false_eq_true, if_false]
  exact status_parse_replicate n

/-! ## Claim theorems -/

/-- C2: for every list of `N ≥ 0` changed paths and batch size `B ≥ 1`, the
partitioning step produces exactly `⌈N/B⌉` batches (`N/B` plus one exactly
when `B` does not divide `N`); every batch but the last has size `B`, the
last (when it exists) has size `N % B`, or `B` when `N % B = 0`; and the
concatenation of the batches equals the original path list, so every path is
covered exactly once, contiguously, in original order. -/
theorem partition_correct (B : Nat) (hB : 1 ≤ B) (files : List String) :
    (batches B files).length
        = files.length / B + (if files.length % B = 0 then 0 else 1)
    ∧ (∀ l ∈ (batches B files).dropLast, l.length = B)
    ∧ (∀ l, (batches B files).getLast? = some l →
        l.length = if files.length % B = 0 then B else files.length % B)
    ∧ (batches B files).flatten = files := by
  refine ⟨?_, ?_, ?_, ?_⟩
  · have hlen : (batches B files).length = numBatches files.length B := by
      simp [batches]
    rw [hlen]
    exact numBatches_eq_ceil B hB files.length files.length (Nat.le_refl _)
  · exact batches_dropLast_length B hB files.length files (Nat.le_refl _)
  · exact batches_getLast_length B hB files.length files (Nat.le_refl _)
  · exact join_batches_aux B hB files.length files (Nat.le_refl _)

/-- Witness for C2 at `B = 2`, three paths. -/
theorem partition_correct_witness :
    (batches 2 ["a", "b", "c"]).length
        = (["a", "b", "c"] : List String).length / 2
          + (if (["a", "b", "c"] : List String).length % 2 = 0 then 0 else 1)
    ∧ (∀ l ∈ (batches 2 ["a", "b", "c"]).dropLast, l.length = 2)
    ∧ (∀ l, (batches 2 ["a", "b", "c"]).getLast? = some l →
        l.length = if (["a", "b", "c"] : List String).length % 2 = 0 then 2
          else (["a", "b", "c"] : List String).length % 2)
    ∧ (batches 2 ["a", "b", "c"]).flatten = ["a", "b", "c"] :=
  partition_correct 2 (by decide) ["a", "b", "c"]

/-- C4: on every status-query output, `get_changed_files` computes exactly
the spec-described parse: split on null separators, skip empty records, drop
the first three bytes of each record, decode the remainder, skip records
whose decoded path is empty, and return the rest in order without
deduplication. -/
theorem enumerate_changes_correct (bs : List Nat) :
    get_changed_files (some bs) = enumerateChangesSpec bs := by
  unfold get_changed_files enumerateChangesSpec
  by_cases h : bs.isEmpty
  · have hnil : bs = [] := by
      cases bs with
      | nil => rfl
      | cons b t => simp at h
    subst hnil
    rfl
  · show (if bs.isEmpty = true then [] else parseEntries (splitOnZero bs)) = _
    rw [if_neg h, parseEntries_eq]

/-- C10: the map from a batch's path list to the temporary file's content is
not injective: the single path `"a\nb"` (a path with an embedded newline) and
the two paths `"a"`, `"b"` are distinct path lists producing identical file
content, so the staging step cannot distinguish them. -/
theorem temp_content_not_injective :
    tempFileContent ["a\nb"] = tempFileContent ["a", "b"]
    ∧ (["a\nb"] : List String) ≠ ["a", "b"] := by
  exact ⟨rfl, by decide⟩

/-- C6: when the parsed change list is empty the run terminates immediately
with success and an empty trace: no staging, commit, or push command is ever
invoked. -/
theorem empty_changes_no_ops (env : Env)
    (h : get_changed_files (run_git_command env.statusRes) = []) :
    (main env).trace = [] ∧ (main env).exit = .success := by
  unfold main
  rw [h]
  exact ⟨rfl, rfl⟩

/-- Witness for C6: a successful status query reporting no changes. -/
theorem empty_changes_no_ops_witness :
    (main ⟨.ok [], fun _ => true, fun _ => true, fun _ => 0⟩).trace = []
    ∧ (main ⟨.ok [], fun _ => true, fun _ => true,
        fun _ => 0⟩).exit = .success :=
  empty_changes_no_ops ⟨.ok [], fun _ => true, fun _ => true, fun _ => 0⟩
    (by decide)

/-- C5: a failed status query is caught inside `run_git_command`, which
reports `none` for the command's stdout; `get_changed_files` then returns the
empty path list and the run behaves exactly as in the no-pending-changes
case — empty trace, success exit, and a `RunResult` equal to the one obtained
when the status query succeeds with empty output. -/
theorem status_failure_like_empty (env : Env) (rc : Nat) (errbytes : List Nat)
    (h : env.statusRes = .err rc errbytes) :
    run_git_command env.statusRes = none
    ∧ get_changed_files (run_git_command env.statusRes) = []
    ∧ (main env).trace = [] ∧ (main env).exit = .success
    ∧ main env = main { env with statusRes := .ok [] } := by
  have h1 : run_git_command env.statusRes = none := by rw [h]; rfl
  have h2 : get_changed_files (run_git_command env.statusRes) = [] := by
    rw [h1]; rfl
  have h3 := empty_changes_no_ops env h2
  refine ⟨h1, h2, h3.1, h3.2, ?_⟩
  unfold main
  rw [h2]
  rfl

/-- Witness for C5: status query fails with return code 128. -/
theorem status_failure_like_empty_witness :
    run_git_command (Env.statusRes
        ⟨.err 128 [102], fun _ => true, fun _ => true, fun _ => 0⟩) = none
    ∧ get_changed_files (run_git_command (Env.statusRes
        ⟨.err 128 [102], fun _ => true, fun _ => true, fun _ => 0⟩)) = []
    ∧ (main ⟨.err 128 [102], fun _ => true, fun _ => true,
        fun _ => 0⟩).trace = []
    ∧ (main ⟨.err 128 [102], fun _ => true, fun _ => true,
        fun _ => 0⟩).exit = .success
    ∧ main ⟨.err 128 [102], fun _ => true, fun _ => true, fun _ => 0⟩
        = main { (⟨.err 128 [102], fun _ => true, fun _ => true,
            fun _ => 0⟩ : Env) with statusRes := .ok [] } :=
  status_failure_like_empty
    ⟨.err 128 [102], fun _ => true, fun _ => true, fun _ => 0⟩ 128 [102] rfl

/-- C1 counterexample: one changed file, `git add` fails on batch 1.  The
`CalledProcessError` is caught by the `except Exception` clause (lines
84-86), which prints and `break`s, so the run does NOT terminate with an
unhandled-error exit: the process exits with success status.  The trace
shows staging was attempted and failed, no commit was invoked, and the
temporary file was removed. -/
theorem staging_failure_not_unhandled :
    (main envAddFail).exit = .success
    ∧ (main envAddFail).exit ≠ .unhandledError
    ∧ (main envAddFail).trace
        = [(0, [.writeTemp "a\n", .add false, .removeTemp])] := by
  refine ⟨by decide, by decide, by decide⟩

/-- C1 amended: if the staging command or the commit command fails on a
batch, the raised `CalledProcessError` is caught by the per-batch exception
handler; the loop halts at that batch (no later batch appears), no commit is
invoked for that batch when staging failed, the temporary path-list file is
still removed, and the process exits with success status rather than an
unhandled-error exit. -/
theorem staging_or_commit_failure_caught (env : Env) (files : List String)
    (nb n i : Nat) (h : env.addOk i = false ∨ env.commitOk i = false) :
    loopFrom env files nb (n + 1) i
      = [(i, if env.addOk i
             then [.writeTemp (tempFileContent (batchSlice BATCH_SIZE files i)),
                   .add true, .commit (commitMsg i nb) false, .removeTemp]
             else [.writeTemp (tempFileContent (batchSlice BATCH_SIZE files i)),
                   .add false, .removeTemp])]
    ∧ (main env).exit = .success := by
  constructor
  · rw [loopFrom_stop env files nb n i (by rcases h with h | h <;> simp [h])]
    unfold iterActions tryBody
    rcases h with h | h
    · simp [h]
    · by_cases ha : env.addOk i <;> simp [ha, h]
  · exact main_exit_success env

/-- Witness for the amended C1 at the staging-failure environment. -/
theorem staging_or_commit_failure_caught_witness :
    loopFrom envAddFail ["a"] 1 (0 + 1) 0
      = [(0, if envAddFail.addOk 0
             then [.writeTemp (tempFileContent (batchSlice BATCH_SIZE ["a"] 0)),
                   .add true, .commit (commitMsg 0 1) false, .removeTemp]
             else [.writeTemp (tempFileContent (batchSlice BATCH_SIZE ["a"] 0)),
                   .add false, .removeTemp])]
    ∧ (main envAddFail).exit = .success :=
  staging_or_commit_failure_caught envAddFail ["a"] 1 0 0 (Or.inl rfl)

/-- C8: at the end of every loop iteration — completed, failed, or exited
early — the temporary path-list file does not exist: folding the
file-existence state over any iteration's action list yields `false` from
any starting state, because every iteration ends with the `finally` clause's
unconditional removal. -/
theorem temp_file_removed (env : Env) (files : List String) (nb n i : Nat)
    (p : Nat × List Action) (hp : p ∈ loopFrom env files nb n i) (b : Bool) :
    tempExistsAfter b p.2 = false := by
  rw [loopFrom_mem env files nb n i p hp]
  have hs := iterActions_shape env p.1 nb (batchSlice BATCH_SIZE files p.1)
  rcases List.mem_cons.mp hs with he | hs
  · rw [he]; rfl
  · rcases List.mem_cons.mp hs with he | hs
    · rw [he]; rfl
    · rcases List.mem_cons.mp hs with he | hs
      · rw [he]; rfl
      · simp at hs

/-- Witness for C8: the sole iteration of the staging-failure run, starting
from the state in which the temporary file exists. -/
theorem temp_file_removed_witness :
    tempExistsAfter true
      ((0 : Nat), [Action.writeTemp "a\n", Action.add false,
        Action.removeTemp]).2 = false :=
  temp_file_removed envAddFail ["a"] 1 1 0
    ((0 : Nat), [Action.writeTemp "a\n", Action.add false, Action.removeTemp])
    (by decide) true

/-- C9: processing is strictly sequential.  Within any iteration the action
list is one of three explicitly ordered sequences — the path-list write comes
first, staging follows the write, a commit appears only after a successful
staging, a push only after a successful commit, and the removal is last — and
across iterations the trace's batch indices form the contiguous ascending
range starting at the first index: batches are processed one at a time, in
order, never concurrently. -/
theorem sequential_processing (env : Env) (files : List String)
    (nb n i : Nat) (batch : List String) :
    ((iterActions env i nb batch).1 ∈
      [[Action.writeTemp (tempFileContent batch), .add false, .removeTemp],
       [Action.writeTemp (tempFileContent batch), .add true,
        .commit (commitMsg i nb) false, .removeTemp],
       [Action.writeTemp (tempFileContent batch), .add true,
        .commit (commitMsg i nb) true, .push (env.pushRet i), .removeTemp]])
    ∧ ∃ l, l ≤ n ∧
        (loopFrom env files nb n i).map Prod.fst = List.range' i l :=
  ⟨iterActions_shape env i nb batch, loopFrom_indices env files nb n i⟩

/-- C3: if the push command returns non-zero on batch `k` of `T` with
`k + 1 < T` (batches counted from 0 here; the claim's batch `k` of `T`,
`k < T`, is index `k - 1`), then the trace consists of exactly the batches
`0..k`: each earlier batch was staged, committed, and pushed with return
code 0; batch `k` was staged and committed and its push returned the
non-zero code; no later batch is ever staged, committed, or pushed; every
iteration removed the temporary file; and the process exits with success
status — no exception is raised and nothing rolls back the created
commits. -/
theorem push_failure_halts (env : Env) (files : List String) (k : Nat)
    (hfiles : get_changed_files (run_git_command env.statusRes) = files)
    (hk : k + 1 < numBatches files.length BATCH_SIZE)
    (hadd : ∀ j, j ≤ k → env.addOk j = true)
    (hcommit : ∀ j, j ≤ k → env.commitOk j = true)
    (hpush : ∀ j, j < k → env.pushRet j = 0)
    (hfail : env.pushRet k ≠ 0) :
    (main env).trace
      = (List.range k).map (fun j =>
          (j, [Action.writeTemp (tempFileContent (batchSlice BATCH_SIZE files j)),
               .add true,
               .commit (commitMsg j (numBatches files.length BATCH_SIZE)) true,
               .push 0, .removeTemp]))
        ++ [(k, [Action.writeTemp (tempFileContent (batchSlice BATCH_SIZE files k)),
               .add true,
               .commit (commitMsg k (numBatches files.length BATCH_SIZE)) true,
               .push (env.pushRet k), .removeTemp])]
    ∧ (main env).exit = .success := by
  have h0 : files.length ≠ 0 := by
    intro h0
    rw [h0, numBatches_zero BATCH_SIZE (by decide)] at hk
    omega
  refine ⟨?_, main_exit_success env⟩
  unfold main
  rw [hfiles, if_neg h0]
  show loopFrom env files (numBatches files.length BATCH_SIZE)
      (numBatches files.length BATCH_SIZE) 0 = _
  have hnb : numBatches files.length BATCH_SIZE
      = k + ((numBatches files.length BATCH_SIZE - k - 1) + 1) := by omega
  rw [show loopFrom env files (numBatches files.length BATCH_SIZE)
        (numBatches files.length BATCH_SIZE) 0
      = loopFrom env files (numBatches files.length BATCH_SIZE)
        (k + ((numBatches files.length BATCH_SIZE - k - 1) + 1)) 0 by rw [← hnb]]
  rw [loopFrom_ok_segment env files (numBatches files.length BATCH_SIZE) k
      ((numBatches files.length BATCH_SIZE - k - 1) + 1) 0
      (fun j h1 h2 => ⟨hadd j (by omega), hcommit j (by omega),
        hpush j (by omega)⟩)]
  rw [show (0 : Nat) + k = k by omega]
  rw [loopFrom_stop env files (numBatches files.length BATCH_SIZE)
      (numBatches files.length BATCH_SIZE - k - 1) k
      (by intro hc; exact hfail hc.2.2)]
  rw [iterActions_eq env files (numBatches files.length BATCH_SIZE) k
      (hadd k (Nat.le_refl k)) (hcommit k (Nat.le_refl k))]
  rw [← List.range_eq_range']
  congr 1
  apply List.map_congr_left
  intro j hj
  rw [List.mem_range] at hj
  unfold okIterActs
  rw [hpush j hj]

/-- Witness for C3: 501 changed files (2 batches of 500 and 1), push fails
on the first batch. -/
theorem push_failure_halts_witness :
    (main envPushFail).trace
      = (List.range 0).map (fun j =>
          (j, [Action.writeTemp
                (tempFileContent (batchSlice BATCH_SIZE files501 j)),
               .add true,
               .commit (commitMsg j (numBatches files501.length BATCH_SIZE)) true,
               .push 0, .removeTemp]))
        ++ [(0, [Action.writeTemp
                (tempFileContent (batchSlice BATCH_SIZE files501 0)),
               .add true,
               .commit (commitMsg 0 (numBatches files501.length BATCH_SIZE)) true,
               .push (envPushFail.pushRet 0), .removeTemp])]
    ∧ (main envPushFail).exit = .success :=
  push_failure_halts envPushFail files501 0
    (get_changed_files_replicate 501 (by omega))
    (by rw [show files501.length = 501 from by
          simp [files501]]
        decide)
    (fun j hj => rfl) (fun j hj => rfl) (fun j hj => by omega) (by decide)

/-- C7: when the status query reports 1200 changed paths and every command
succeeds, the run makes exactly 3 batches of sizes 500, 500 and 200, and
commits them with messages "Auto-batch commit: Part 1 of 3",
"Auto-batch commit: Part 2 of 3" and "Auto-batch commit: Part 3 of 3". -/
theorem scenario_1200 (env : Env) (files : List String)
    (hfiles : get_changed_files (run_git_command env.statusRes) = files)
    (hlen : files.length = 1200)
    (hadd : ∀ j, env.addOk j = true)
    (hcommit : ∀ j, env.commitOk j = true)
    (hpush : ∀ j, env.pushRet j = 0) :
    numBatches files.length BATCH_SIZE = 3
    ∧ (batches BATCH_SIZE files).map List.length = [500, 500, 200]
    ∧ (main env).trace
        = [(0, [.writeTemp (tempFileContent (batchSlice BATCH_SIZE files 0)),
                .add true, .commit "Auto-batch commit: Part 1 of 3" true,
                .push 0, .removeTemp]),
           (1, [.writeTemp (tempFileContent (batchSlice BATCH_SIZE files 1)),
                .add true, .commit "Auto-batch commit: Part 2 of 3" true,
                .push 0, .removeTemp]),
           (2, [.writeTemp (tempFileContent (batchSlice BATCH_SIZE files 2)),
                .add true, .commit "Auto-batch commit: Part 3 of 3" true,
                .push 0, .removeTemp])] := by
  have h3 : numBatches files.length BATCH_SIZE = 3 := by
    rw [hlen]
    decide
  refine ⟨h3, ?_, ?_⟩
  · unfold batches
    rw [h3]
    show ([0, 1, 2].map (batchSlice BATCH_SIZE files)).map List.length = _
    simp [batchSlice, hlen, BATCH_SIZE]
  · have h0 : files.length ≠ 0 := by omega
    unfold main
    rw [hfiles, if_neg h0, h3]
    show loopFrom env files 3 (3 + 0) 0 = _
    rw [loopFrom_ok_segment env files 3 3 0 0
        (fun j h1 h2 => ⟨hadd j, hcommit j, hpush j⟩)]
    show ([0, 1, 2].map fun j => (j, okIterActs env files 3 j)) ++ [] = _
    have hm1 : commitMsg 0 3 = "Auto-batch commit: Part 1 of 3" := rfl
    have hm2 : commitMsg 1 3 = "Auto-batch commit: Part 2 of 3" := rfl
    have hm3 : commitMsg 2 3 = "Auto-batch commit: Part 3 of 3" := rfl
    simp [okIterActs, hpush, hm1, hm2, hm3]

/-- Witness for C7 at the all-succeeding 1200-file environment. -/
theorem scenario_1200_witness :
    numBatches files1200.length BATCH_SIZE = 3
    ∧ (batches BATCH_SIZE files1200).map List.length = [500, 500, 200]
    ∧ (main envAllOk1200).trace
        = [(0, [.writeTemp (tempFileContent (batchSlice BATCH_SIZE files1200 0)),
                .add true, .commit "Auto-batch commit: Part 1 of 3" true,
                .push 0, .removeTemp]),
           (1, [.writeTemp (tempFileContent (batchSlice BATCH_SIZE files1200 1)),
                .add true, .commit "Auto-batch commit: Part 2 of 3" true,
                .push 0, .removeTemp]),
           (2, [.writeTemp (tempFileContent (batchSlice BATCH_SIZE files1200 2)),
                .add true, .commit "Auto-batch commit: Part 3 of 3" true,
                .push 0, .removeTemp])] :=
  scenario_1200 envAllOk1200 files1200
    (get_changed_files_replicate 1200 (by omega))
    (by simp [files1200])
    (fun j => rfl) (fun j => rfl) (fun j => rfl)

end BatchPush
